import Mathlib

/-!
Shallow embedding of the LUXBIN EVM compiler's ABI-generation module and its
compile facade (src/lib/compiler/index.ts), with theorems checking the
specification's claims about them.

The AST node types follow the compiler's `types` module as the ABI generator
consumes them (tagged variants, spec section 3).  All functions are translated
clause by clause from the TypeScript source; helper predicates and the
`reach` closures that state reachability-style claims are clearly marked.
-/

/-- AST expression nodes (tagged variants, spec section 3). -/
inductive Expression where
  | NumberLiteral (value : Int)
  | StringLiteral (value : String)
  | BooleanLiteral (value : Bool)
  | ArrayLiteral (elements : List Expression)
  | Identifier (name : String)
  | BinaryExpression (operator : String) (left : Expression) (right : Expression)
  | UnaryExpression (operator : String) (operand : Expression)
  | CallExpression (callee : String) (arguments : List Expression)
  | IndexExpression (object : Expression) (index : Expression)

/-- Function parameter: name plus optional type annotation. -/
structure Param where
  name : String
  typeAnn : Option String
deriving DecidableEq

/-- AST statement nodes (tagged variants, spec section 3).  An
`IfStatement` carries its consequent block, the ordered `else if`
clauses (condition, body) and an optional `else` block. -/
inductive Statement where
  | LetDeclaration (name : String) (typeAnn : Option String) (value : Option Expression)
  | ConstDeclaration (name : String) (typeAnn : Option String) (value : Option Expression)
  | FunctionDeclaration (name : String) (params : List Param) (returnType : Option String)
      (body : List Statement)
  | IfStatement (condition : Expression) (consequent : List Statement)
      (alternateConditions : List (Expression × List Statement))
      (alternate : Option (List Statement))
  | WhileStatement (condition : Expression) (body : List Statement)
  | ForStatement (var : String) (iterable : Expression) (body : List Statement)
  | ReturnStatement (value : Option Expression)
  | Assignment (target : String) (value : Expression)
  | IndexAssignment (target : String) (index : Expression) (value : Expression)
  | ExpressionStatement (expression : Expression)
  | BreakStatement
  | ContinueStatement

/-- The AST root: an ordered list of top-level statements. -/
structure Program where
  body : List Statement

/-- ABI parameter: {name, type}. -/
structure ABIParam where
  name : String
  type : String
deriving DecidableEq

/-- ABI entry, mirroring the source's `ABIEntry` interface; the optional
TypeScript fields are `Option`s here. -/
structure ABIEntry where
  type : String
  name : Option String
  inputs : List ABIParam
  outputs : Option (List ABIParam)
  stateMutability : Option String
  anonymous : Option Bool
deriving DecidableEq

/-- The fixed source-to-target type table (`TYPE_MAP` in the source). -/
def TYPE_MAP : String → Option String
  | "photon_int" => some "int256"
  | "photon_float" => some "int256"
  | "photon_string" => some "string"
  | "photon_bool" => some "bool"
  | "photon_array" => some "int256[]"
  | "qubit" => some "uint256"
  | _ => none

/-- `toSolType`: absent annotation or unknown tag defaults to "int256". -/
def toSolType : Option String → String
  | none => "int256"
  | some t => (TYPE_MAP t).getD "int256"

mutual

/-- `functionHasReturn` from the source: a return statement carrying a value,
searched through if/else-if/else, while and for bodies. -/
def functionHasReturn : List Statement → Bool
  | [] => false
  | s :: rest => stmtHasReturn s || functionHasReturn rest

def stmtHasReturn : Statement → Bool
  | .ReturnStatement (some _) => true
  | .IfStatement _ cons alts alt =>
      functionHasReturn cons || optHasReturn alt || altsHaveReturn alts
  | .WhileStatement _ b => functionHasReturn b
  | .ForStatement _ _ b => functionHasReturn b
  | _ => false

def optHasReturn : Option (List Statement) → Bool
  | none => false
  | some b => functionHasReturn b

def altsHaveReturn : List (Expression × List Statement) → Bool
  | [] => false
  | (_, b) :: rest => functionHasReturn b || altsHaveReturn rest

end

mutual

/-- `functionModifiesState` from the source: an assignment, an indexed
assignment or a statement-level `photon_print` call, searched through
if/else-if/else, while and for bodies. -/
def functionModifiesState : List Statement → Bool
  | [] => false
  | s :: rest => stmtModifiesState s || functionModifiesState rest

def stmtModifiesState : Statement → Bool
  | .Assignment _ _ => true
  | .IndexAssignment _ _ _ => true
  | .ExpressionStatement (.CallExpression callee _) => callee == "photon_print"
  | .IfStatement _ cons alts alt =>
      functionModifiesState cons || optModifiesState alt || altsModifyState alts
  | .WhileStatement _ b => functionModifiesState b
  | .ForStatement _ _ b => functionModifiesState b
  | _ => false

def optModifiesState : Option (List Statement) → Bool
  | none => false
  | some b => functionModifiesState b

def altsModifyState : List (Expression × List Statement) → Bool
  | [] => false
  | (_, b) :: rest => functionModifiesState b || altsModifyState rest

end

/-- `inferExprType` from the source. -/
def inferExprType : Expression → String
  | .StringLiteral _ => "string"
  | .BooleanLiteral _ => "bool"
  | .ArrayLiteral _ => "int256[]"
  | .NumberLiteral _ => "int256"
  | .BinaryExpression op _ _ =>
      if op == "==" || op == "!=" || op == "<" || op == ">" ||
         op == "<=" || op == ">=" || op == "and" || op == "or" then "bool"
      else "int256"
  | .UnaryExpression op _ => if op == "not" then "bool" else "int256"
  | _ => "int256"

/-- `inferReturnType` from the source: scans the function body's TOP-LEVEL
statements only for the first return with a value; defaults to "int256". -/
def inferReturnType : List Statement → String
  | [] => "int256"
  | .ReturnStatement (some v) :: _ => inferExprType v
  | _ :: rest => inferReturnType rest

/-- Which log-event variants a program uses (`usesLog` in the source). -/
structure UsesLog where
  str : Bool
  int : Bool
  bool : Bool
deriving DecidableEq

/-- The flag update `checkLogUsage` performs for one statement-level
`photon_print` call with the given argument list. -/
def logFlagUpdate (args : List Expression) (u : UsesLog) : UsesLog :=
  match args with
  | [] => u
  | .StringLiteral _ :: _ => { u with str := true }
  | .BooleanLiteral _ :: _ => { u with bool := true }
  | _ :: _ => { u with int := true }

mutual

/-- `checkLogUsage` from the source: threads the mutable `usesLog` record
through every statement, recursing into function, if/else-if/else, while
and for bodies. -/
def checkLogUsage : List Statement → UsesLog → UsesLog
  | [], u => u
  | s :: rest, u => checkLogUsage rest (checkLogStmt s u)

def checkLogStmt : Statement → UsesLog → UsesLog
  | .ExpressionStatement (.CallExpression callee args), u =>
      if callee == "photon_print" then logFlagUpdate args u else u
  | .FunctionDeclaration _ _ _ body, u => checkLogUsage body u
  | .IfStatement _ cons alts alt, u =>
      checkLogAlts alts (checkLogOpt alt (checkLogUsage cons u))
  | .WhileStatement _ b, u => checkLogUsage b u
  | .ForStatement _ _ b, u => checkLogUsage b u
  | _, u => u

def checkLogOpt : Option (List Statement) → UsesLog → UsesLog
  | none, u => u
  | some b, u => checkLogUsage b u

def checkLogAlts : List (Expression × List Statement) → UsesLog → UsesLog
  | [], u => u
  | (_, b) :: rest, u => checkLogAlts rest (checkLogUsage b u)

end

/-- `generateFunctionABI` from the source, over the fields of a
`FunctionDeclaration`. -/
def generateFunctionABI (name : String) (params : List Param)
    (returnType : Option String) (body : List Statement) : ABIEntry :=
  let inputs := params.map fun p => ABIParam.mk p.name (toSolType p.typeAnn)
  let hasReturn := functionHasReturn body
  let outputs : List ABIParam :=
    if hasReturn then
      [ABIParam.mk "" (match returnType with
        | some rt => toSolType (some rt)
        | none => inferReturnType body)]
    else []
  let sm := if hasReturn && !functionModifiesState body then "view" else "nonpayable"
  ABIEntry.mk "function" (some name) inputs (some outputs) (some sm) none

/-- The `Log` event entry the source pushes when a string variant is used. -/
def logEventEntry : ABIEntry :=
  ABIEntry.mk "event" (some "Log") [ABIParam.mk "message" "string"] none none (some false)

/-- The `LogInt` event entry. -/
def logIntEventEntry : ABIEntry :=
  ABIEntry.mk "event" (some "LogInt") [ABIParam.mk "value" "int256"] none none (some false)

/-- The `LogBool` event entry. -/
def logBoolEventEntry : ABIEntry :=
  ABIEntry.mk "event" (some "LogBool") [ABIParam.mk "value" "bool"] none none (some false)

/-- The constructor entry the source pushes: no inputs, nonpayable. -/
def constructorEntry : ABIEntry :=
  ABIEntry.mk "constructor" none [] none (some "nonpayable") none

/-- Is a statement a top-level `let`/`const` declaration? -/
def isTopDeclB : Statement → Bool
  | .LetDeclaration _ _ _ => true
  | .ConstDeclaration _ _ _ => true
  | _ => false

/-- Is a statement a function declaration? -/
def isFunctionDeclB : Statement → Bool
  | .FunctionDeclaration _ _ _ _ => true
  | _ => false

/-- `stmt.value?.type === "ArrayLiteral"` from the source. -/
def isArrayLitValue : Option Expression → Bool
  | some (.ArrayLiteral _) => true
  | _ => false

/-- The source's `hasArrayState` test for one statement: a LET declaration
whose initializer is an array literal (const declarations are not tested). -/
def isLetArrayB : Statement → Bool
  | .LetDeclaration _ _ v => isArrayLitValue v
  | _ => false

/-- The indexed getter the source pushes for an array state variable:
one unsigned-integer input, one element-typed output, view. -/
def arrayGetterEntry (name : String) : ABIEntry :=
  ABIEntry.mk "function" (some name) [ABIParam.mk "" "uint256"]
    (some [ABIParam.mk "" "int256"]) (some "view") none

/-- The plain getter the source pushes for a scalar state variable:
no inputs, one output of the given mapped type, view. -/
def scalarGetterEntry (name : String) (t : String) : ABIEntry :=
  ABIEntry.mk "function" (some name) [] (some [ABIParam.mk "" t]) (some "view") none

/-- The auto-generated getter the source pushes for one top-level
declaration: an indexed getter for array-literal initializers, otherwise a
plain getter typed from the annotation. -/
def declGetter : Statement → Option ABIEntry
  | .LetDeclaration name tyAnn v | .ConstDeclaration name tyAnn v =>
      some (if isArrayLitValue v then arrayGetterEntry name
            else scalarGetterEntry name (toSolType tyAnn))
  | _ => none

/-- The ABI entry the source pushes for one function declaration. -/
def funcABIEntry : Statement → Option ABIEntry
  | .FunctionDeclaration name params rt body =>
      some (generateFunctionABI name params rt body)
  | _ => none

/-- The event entries `generateABI` pushes first: one per used log variant,
in the fixed order Log, LogInt, LogBool. -/
def eventEntries (body : List Statement) : List ABIEntry :=
  let usesLog := checkLogUsage body (UsesLog.mk false false false)
  (if usesLog.str then [logEventEntry] else []) ++
  (if usesLog.int then [logIntEventEntry] else []) ++
  (if usesLog.bool then [logBoolEventEntry] else [])

/-- The constructor segment `generateABI` pushes next: one entry when the
program has a top-level non-declaration non-function statement, or a `let`
state variable initialized with an array literal. -/
def ctorEntries (body : List Statement) : List ABIEntry :=
  if (body.any fun s => !(isTopDeclB s || isFunctionDeclB s)) || body.any isLetArrayB
  then [constructorEntry] else []

/-- `generateABI` from the source: events, then the optional constructor,
then one getter per state variable, then one entry per function. -/
def generateABI (program : Program) : List ABIEntry :=
  eventEntries program.body ++ ctorEntries program.body ++
    program.body.filterMap declGetter ++ program.body.filterMap funcABIEntry

/-- `CompileResult` from the source: exactly the four fields the facade
returns (`success`, `solidity`, `warnings`, `error`); the interface declares
no `abi` field. -/
structure CompileResult where
  success : Bool
  solidity : String
  warnings : List String
  error : Option String
deriving DecidableEq

/-- The compile facade from the source, over an explicit pipeline (the
lexer/parser/codegen composition): a pipeline fault becomes the structured
failure result, success wraps the generated text and warnings. -/
def compileWith (pipeline : String → String → Except String (String × List String))
    (source contractName : String) : CompileResult :=
  match pipeline source contractName with
  | .ok (sol, warns) => CompileResult.mk true sol warns none
  | .error msg => CompileResult.mk false "" [] (some msg)

/-- Modelled from the spec: the lexer, parser and code-generator modules the
facade imports (./lexer, ./parser, ./codegen) are not among the available
sources.  Per spec sections 4.1, 4.2 and 4.4 their composition is a pure
function of the source text and contract name that either fails with a single
lexical/parse error message or returns generated target text plus an ordered
warning list.  This model enforces the spec's block-termination invariant
(every block opener matched by an `end`) and otherwise succeeds with a
minimal contract skeleton. -/
def pipelineModel (source contractName : String) : Except String (String × List String) :=
  let ws := source.split Char.isWhitespace
  let opens := ws.countP fun w => w == "func" || w == "if" || w == "while" || w == "for"
  let ends := ws.countP fun w => w == "end"
  if opens == ends then
    Except.ok ("// SPDX-License-Identifier: MIT\ncontract " ++ contractName ++ " {}", [])
  else
    Except.error "Parse error: unterminated block, expected end"

/-- The compile entry point: the facade applied to the modelled pipeline. -/
def compile (source contractName : String) : CompileResult :=
  compileWith pipelineModel source contractName

/-- Ambient execution context a compile call could in principle observe: a
clock, a randomness seed and results left over from prior invocations.  The
facade and the ABI generator consult none of these; the environment-threaded
wrappers below record that fact. -/
structure Env where
  clock : Nat
  randomSeed : Nat
  priorResults : List CompileResult

/-- The compile facade threaded through the ambient context: translated from
a source that reads no clock, randomness or cross-invocation state, so the
context passes through untouched. -/
def compileInEnv (pipeline : String → String → Except String (String × List String))
    (env : Env) (source contractName : String) : CompileResult × Env :=
  (compileWith pipeline source contractName, env)

/-- `generateABI` threaded through the ambient context, likewise. -/
def generateABIInEnv (env : Env) (p : Program) : List ABIEntry × Env :=
  (generateABI p, env)

mutual

/-- Claim-side closure: every statement reachable from a block through
if/else-if/else, while and for bodies (the blocks the mutability and
return analyses scan; function declarations are not entered). -/
def bodyReach : List Statement → List Statement
  | [] => []
  | s :: rest => stmtReach s ++ bodyReach rest

def stmtReach : Statement → List Statement
  | .IfStatement c cons alts alt =>
      .IfStatement c cons alts alt :: (bodyReach cons ++ optReach alt ++ altsReach alts)
  | .WhileStatement c b => .WhileStatement c b :: bodyReach b
  | .ForStatement v it b => .ForStatement v it b :: bodyReach b
  | s => [s]

def optReach : Option (List Statement) → List Statement
  | none => []
  | some b => bodyReach b

def altsReach : List (Expression × List Statement) → List Statement
  | [] => []
  | (_, b) :: rest => bodyReach b ++ altsReach rest

end

mutual

/-- Claim-side closure: every statement reachable anywhere in a program,
additionally entering function-declaration bodies (the blocks the log-usage
analysis scans). -/
def bodyReachAll : List Statement → List Statement
  | [] => []
  | s :: rest => stmtReachAll s ++ bodyReachAll rest

def stmtReachAll : Statement → List Statement
  | .FunctionDeclaration n ps rt b =>
      .FunctionDeclaration n ps rt b :: bodyReachAll b
  | .IfStatement c cons alts alt =>
      .IfStatement c cons alts alt :: (bodyReachAll cons ++ optReachAll alt ++ altsReachAll alts)
  | .WhileStatement c b => .WhileStatement c b :: bodyReachAll b
  | .ForStatement v it b => .ForStatement v it b :: bodyReachAll b
  | s => [s]

def optReachAll : Option (List Statement) → List Statement
  | none => []
  | some b => bodyReachAll b

def altsReachAll : List (Expression × List Statement) → List Statement
  | [] => []
  | (_, b) :: rest => bodyReachAll b ++ altsReachAll rest

end

/-- Claim-side: is this a return statement (with or without a value)? -/
def isReturnStmtB : Statement → Bool
  | .ReturnStatement _ => true
  | _ => false

/-- Claim-side: is this a return statement carrying a value? -/
def isValuedReturnB : Statement → Bool
  | .ReturnStatement (some _) => true
  | _ => false

/-- Claim-side: is this statement an assignment, an indexed assignment or a
statement-level call to the state-logging primitive `photon_print`? -/
def isStateModifyingB : Statement → Bool
  | .Assignment _ _ => true
  | .IndexAssignment _ _ _ => true
  | .ExpressionStatement (.CallExpression callee _) => callee == "photon_print"
  | _ => false

/-- Claim-side: a statement-level `photon_print` call whose first argument is
a string literal (the string log variant). -/
def isStrPrintB : Statement → Bool
  | .ExpressionStatement (.CallExpression callee (.StringLiteral _ :: _)) =>
      callee == "photon_print"
  | _ => false

/-- Claim-side: a statement-level `photon_print` call whose first argument is
a boolean literal (the bool log variant). -/
def isBoolPrintB : Statement → Bool
  | .ExpressionStatement (.CallExpression callee (.BooleanLiteral _ :: _)) =>
      callee == "photon_print"
  | _ => false

/-- Claim-side: a statement-level `photon_print` call with at least one
argument whose first argument is neither a string nor a boolean literal
(the numeric log variant). -/
def isIntPrintB : Statement → Bool
  | .ExpressionStatement (.CallExpression callee (a :: _)) =>
      callee == "photon_print" &&
        !(match a with
          | .StringLiteral _ => true
          | .BooleanLiteral _ => true
          | _ => false)
  | _ => false

/-- Claim-side: a statement-level `photon_print` call with no arguments. -/
def isZeroArgPrintB : Statement → Bool
  | .ExpressionStatement (.CallExpression callee []) => callee == "photon_print"
  | _ => false

/-- Claim-side: a statement-level `photon_print` call with at least one
argument. -/
def isArgPrintB : Statement → Bool
  | .ExpressionStatement (.CallExpression callee (_ :: _)) => callee == "photon_print"
  | _ => false

mutual

theorem functionHasReturn_eq_reach (body : List Statement) :
    functionHasReturn body = (bodyReach body).any isValuedReturnB :=
  match body with
  | [] => rfl
  | s :: rest => by
      rw [functionHasReturn, bodyReach, List.any_append,
        stmtHasReturn_eq_reach s, functionHasReturn_eq_reach rest]

theorem stmtHasReturn_eq_reach (s : Statement) :
    stmtHasReturn s = (stmtReach s).any isValuedReturnB :=
  match s with
  | .IfStatement c cons alts alt => by
      rw [stmtHasReturn, stmtReach]
      simp only [List.any_cons, List.any_append]
      rw [functionHasReturn_eq_reach cons, optHasReturn_eq_reach alt,
        altsHaveReturn_eq_reach alts]
      simp [isValuedReturnB]
  | .WhileStatement c b => by
      rw [stmtHasReturn, stmtReach]
      simp only [List.any_cons]
      rw [functionHasReturn_eq_reach b]
      simp [isValuedReturnB]
  | .ForStatement v it b => by
      rw [stmtHasReturn, stmtReach]
      simp only [List.any_cons]
      rw [functionHasReturn_eq_reach b]
      simp [isValuedReturnB]
  | .ReturnStatement none => rfl
  | .ReturnStatement (some _) => rfl
  | .LetDeclaration _ _ _ => rfl
  | .ConstDeclaration _ _ _ => rfl
  | .FunctionDeclaration _ _ _ _ => rfl
  | .Assignment _ _ => rfl
  | .IndexAssignment _ _ _ => rfl
  | .ExpressionStatement _ => rfl
  | .BreakStatement => rfl
  | .ContinueStatement => rfl

theorem optHasReturn_eq_reach (alt : Option (List Statement)) :
    optHasReturn alt = (optReach alt).any isValuedReturnB :=
  match alt with
  | none => rfl
  | some b => by
      rw [optHasReturn, optReach, functionHasReturn_eq_reach b]

theorem altsHaveReturn_eq_reach (alts : List (Expression × List Statement)) :
    altsHaveReturn alts = (altsReach alts).any isValuedReturnB :=
  match alts with
  | [] => rfl
  | (c, b) :: rest => by
      rw [altsHaveReturn, altsReach, List.any_append,
        functionHasReturn_eq_reach b, altsHaveReturn_eq_reach rest]

end

mutual

theorem functionModifiesState_eq_reach (body : List Statement) :
    functionModifiesState body = (bodyReach body).any isStateModifyingB :=
  match body with
  | [] => rfl
  | s :: rest => by
      rw [functionModifiesState, bodyReach, List.any_append,
        stmtModifiesState_eq_reach s, functionModifiesState_eq_reach rest]

theorem stmtModifiesState_eq_reach (s : Statement) :
    stmtModifiesState s = (stmtReach s).any isStateModifyingB :=
  match s with
  | .IfStatement c cons alts alt => by
      rw [stmtModifiesState, stmtReach]
      simp only [List.any_cons, List.any_append]
      rw [functionModifiesState_eq_reach cons, optModifiesState_eq_reach alt,
        altsModifyState_eq_reach alts]
      simp [isStateModifyingB]
  | .WhileStatement c b => by
      rw [stmtModifiesState, stmtReach]
      simp only [List.any_cons]
      rw [functionModifiesState_eq_reach b]
      simp [isStateModifyingB]
  | .ForStatement v it b => by
      rw [stmtModifiesState, stmtReach]
      simp only [List.any_cons]
      rw [functionModifiesState_eq_reach b]
      simp [isStateModifyingB]
  | .ReturnStatement none => rfl
  | .ReturnStatement (some _) => rfl
  | .LetDeclaration _ _ _ => rfl
  | .ConstDeclaration _ _ _ => rfl
  | .FunctionDeclaration _ _ _ _ => rfl
  | .Assignment _ _ => by
      simp [stmtModifiesState, stmtReach, isStateModifyingB]
  | .IndexAssignment _ _ _ => by
      simp [stmtModifiesState, stmtReach, isStateModifyingB]
  | .ExpressionStatement e => by
      cases e <;> simp [stmtModifiesState, stmtReach, isStateModifyingB]
  | .BreakStatement => rfl
  | .ContinueStatement => rfl

theorem optModifiesState_eq_reach (alt : Option (List Statement)) :
    optModifiesState alt = (optReach alt).any isStateModifyingB :=
  match alt with
  | none => rfl
  | some b => by
      rw [optModifiesState, optReach, functionModifiesState_eq_reach b]

theorem altsModifyState_eq_reach (alts : List (Expression × List Statement)) :
    altsModifyState alts = (altsReach alts).any isStateModifyingB :=
  match alts with
  | [] => rfl
  | (c, b) :: rest => by
      rw [altsModifyState, altsReach, List.any_append,
        functionModifiesState_eq_reach b, altsModifyState_eq_reach rest]

end

mutual

theorem checkLogUsage_eq_reach (body : List Statement) (u : UsesLog) :
    checkLogUsage body u =
      UsesLog.mk (u.str || (bodyReachAll body).any isStrPrintB)
        (u.int || (bodyReachAll body).any isIntPrintB)
        (u.bool || (bodyReachAll body).any isBoolPrintB) :=
  match body with
  | [] => by simp [checkLogUsage, bodyReachAll]
  | s :: rest => by
      rw [checkLogUsage, checkLogUsage_eq_reach rest (checkLogStmt s u),
        checkLogStmt_eq_reach s u, bodyReachAll]
      simp [List.any_append, Bool.or_assoc]

theorem checkLogStmt_eq_reach (s : Statement) (u : UsesLog) :
    checkLogStmt s u =
      UsesLog.mk (u.str || (stmtReachAll s).any isStrPrintB)
        (u.int || (stmtReachAll s).any isIntPrintB)
        (u.bool || (stmtReachAll s).any isBoolPrintB) :=
  match s with
  | .ExpressionStatement (.CallExpression callee args) => by
      cases args with
      | nil =>
          cases h : callee == "photon_print" <;>
            simp [checkLogStmt, stmtReachAll, logFlagUpdate,
              isStrPrintB, isBoolPrintB, isIntPrintB, h]
      | cons a rest =>
          cases a <;> cases h : callee == "photon_print" <;>
            simp [checkLogStmt, stmtReachAll, logFlagUpdate,
              isStrPrintB, isBoolPrintB, isIntPrintB, h]
  | .ExpressionStatement (.NumberLiteral _) => by
      simp [checkLogStmt, stmtReachAll, isStrPrintB, isBoolPrintB, isIntPrintB]
  | .ExpressionStatement (.StringLiteral _) => by
      simp [checkLogStmt, stmtReachAll, isStrPrintB, isBoolPrintB, isIntPrintB]
  | .ExpressionStatement (.BooleanLiteral _) => by
      simp [checkLogStmt, stmtReachAll, isStrPrintB, isBoolPrintB, isIntPrintB]
  | .ExpressionStatement (.ArrayLiteral _) => by
      simp [checkLogStmt, stmtReachAll, isStrPrintB, isBoolPrintB, isIntPrintB]
  | .ExpressionStatement (.Identifier _) => by
      simp [checkLogStmt, stmtReachAll, isStrPrintB, isBoolPrintB, isIntPrintB]
  | .ExpressionStatement (.BinaryExpression _ _ _) => by
      simp [checkLogStmt, stmtReachAll, isStrPrintB, isBoolPrintB, isIntPrintB]
  | .ExpressionStatement (.UnaryExpression _ _) => by
      simp [checkLogStmt, stmtReachAll, isStrPrintB, isBoolPrintB, isIntPrintB]
  | .ExpressionStatement (.IndexExpression _ _) => by
      simp [checkLogStmt, stmtReachAll, isStrPrintB, isBoolPrintB, isIntPrintB]
  | .FunctionDeclaration n ps rt b => by
      rw [checkLogStmt, checkLogUsage_eq_reach b u, stmtReachAll]
      simp [isStrPrintB, isBoolPrintB, isIntPrintB]
  | .IfStatement c cons alts alt => by
      rw [checkLogStmt, checkLogUsage_eq_reach cons u]
      rw [checkLogOpt_eq_reach alt (UsesLog.mk
        (u.str || (bodyReachAll cons).any isStrPrintB)
        (u.int || (bodyReachAll cons).any isIntPrintB)
        (u.bool || (bodyReachAll cons).any isBoolPrintB))]
      rw [checkLogAlts_eq_reach alts _]
      rw [stmtReachAll]
      simp [List.any_append, Bool.or_assoc, isStrPrintB, isBoolPrintB, isIntPrintB]
  | .WhileStatement c b => by
      rw [checkLogStmt, checkLogUsage_eq_reach b u, stmtReachAll]
      simp [isStrPrintB, isBoolPrintB, isIntPrintB]
  | .ForStatement v it b => by
      rw [checkLogStmt, checkLogUsage_eq_reach b u, stmtReachAll]
      simp [isStrPrintB, isBoolPrintB, isIntPrintB]
  | .LetDeclaration _ _ _ => by
      simp [checkLogStmt, stmtReachAll, isStrPrintB, isBoolPrintB, isIntPrintB]
  | .ConstDeclaration _ _ _ => by
      simp [checkLogStmt, stmtReachAll, isStrPrintB, isBoolPrintB, isIntPrintB]
  | .ReturnStatement _ => by
      simp [checkLogStmt, stmtReachAll, isStrPrintB, isBoolPrintB, isIntPrintB]
  | .Assignment _ _ => by
      simp [checkLogStmt, stmtReachAll, isStrPrintB, isBoolPrintB, isIntPrintB]
  | .IndexAssignment _ _ _ => by
      simp [checkLogStmt, stmtReachAll, isStrPrintB, isBoolPrintB, isIntPrintB]
  | .BreakStatement => by
      simp [checkLogStmt, stmtReachAll, isStrPrintB, isBoolPrintB, isIntPrintB]
  | .ContinueStatement => by
      simp [checkLogStmt, stmtReachAll, isStrPrintB, isBoolPrintB, isIntPrintB]

theorem checkLogOpt_eq_reach (alt : Option (List Statement)) (u : UsesLog) :
    checkLogOpt alt u =
      UsesLog.mk (u.str || (optReachAll alt).any isStrPrintB)
        (u.int || (optReachAll alt).any isIntPrintB)
        (u.bool || (optReachAll alt).any isBoolPrintB) :=
  match alt with
  | none => by simp [checkLogOpt, optReachAll]
  | some b => by
      rw [checkLogOpt, checkLogUsage_eq_reach b u, optReachAll]

theorem checkLogAlts_eq_reach (alts : List (Expression × List Statement)) (u : UsesLog) :
    checkLogAlts alts u =
      UsesLog.mk (u.str || (altsReachAll alts).any isStrPrintB)
        (u.int || (altsReachAll alts).any isIntPrintB)
        (u.bool || (altsReachAll alts).any isBoolPrintB) :=
  match alts with
  | [] => by simp [checkLogAlts, altsReachAll]
  | (c, b) :: rest => by
      rw [checkLogAlts, checkLogUsage_eq_reach b u,
        checkLogAlts_eq_reach rest _, altsReachAll]
      simp [List.any_append, Bool.or_assoc]

end

theorem functionHasReturn_append (l₁ l₂ : List Statement) :
    functionHasReturn (l₁ ++ l₂) = (functionHasReturn l₁ || functionHasReturn l₂) := by
  induction l₁ with
  | nil => simp [functionHasReturn]
  | cons s rest ih =>
      rw [List.cons_append, functionHasReturn, ih, functionHasReturn, Bool.or_assoc]

theorem inferReturnType_skip (pre rest : List Statement)
    (h : ∀ s ∈ pre, isValuedReturnB s = false) :
    inferReturnType (pre ++ rest) = inferReturnType rest := by
  induction pre with
  | nil => simp
  | cons s t ih =>
      have hs : isValuedReturnB s = false := h s (List.mem_cons_self s t)
      have ht : ∀ x ∈ t, isValuedReturnB x = false := fun x hx => h x (List.mem_cons_of_mem s hx)
      rw [List.cons_append]
      cases s with
      | ReturnStatement v =>
          cases v with
          | none => exact ih ht
          | some e => simp [isValuedReturnB] at hs
      | LetDeclaration n ty val => exact ih ht
      | ConstDeclaration n ty val => exact ih ht
      | FunctionDeclaration n ps rt b => exact ih ht
      | IfStatement c cons alts alt => exact ih ht
      | WhileStatement c b => exact ih ht
      | ForStatement v it b => exact ih ht
      | Assignment tgt val => exact ih ht
      | IndexAssignment tgt i val => exact ih ht
      | ExpressionStatement e => exact ih ht
      | BreakStatement => exact ih ht
      | ContinueStatement => exact ih ht

theorem declGetter_is_function (s : Statement) (e : ABIEntry)
    (h : declGetter s = some e) : e.type = "function" := by
  cases s <;> simp [declGetter] at h <;> (rcases h with rfl; split <;> rfl)

theorem funcABIEntry_is_function (s : Statement) (e : ABIEntry)
    (h : funcABIEntry s = some e) : e.type = "function" := by
  cases s <;> simp [funcABIEntry] at h
  rcases h with rfl; rfl

theorem mem_if_singleton {c : Bool} {x e : ABIEntry}
    (h : e ∈ (if c then [x] else ([] : List ABIEntry))) : e = x := by
  cases c with
  | false => simp at h
  | true => simpa using h

theorem eventEntries_mem_type (body : List Statement) (e : ABIEntry)
    (h : e ∈ eventEntries body) : e.type = "event" := by
  simp only [eventEntries, List.mem_append] at h
  rcases h with (h | h) | h <;> rw [mem_if_singleton h] <;> rfl

theorem ctorEntries_mem (body : List Statement) (e : ABIEntry)
    (h : e ∈ ctorEntries body) : e = constructorEntry := by
  simp only [ctorEntries] at h
  exact mem_if_singleton h

/-- C2 counterexample: a function whose body is one bare `return` (no value)
has a reachable return statement and no state-modifying statement, yet its
ABI mutability is "nonpayable", not "view". -/
theorem C2_counterexample :
    (bodyReach [Statement.ReturnStatement none]).any isReturnStmtB = true ∧
    (bodyReach [Statement.ReturnStatement none]).any isStateModifyingB = false ∧
    (generateFunctionABI "f" [] none [Statement.ReturnStatement none]).stateMutability =
      some "nonpayable" :=
  ⟨rfl, rfl, rfl⟩

/-- C2 (amended): a function's ABI mutability is "view" iff some reachable
statement of its body (through nested if/else-if/else, while and for blocks)
is a return carrying a value and no reachable statement is an assignment, an
indexed assignment or a statement-level photon_print call; otherwise it is
"nonpayable". -/
theorem C2_view_iff (name : String) (params : List Param) (rt : Option String)
    (body : List Statement) :
    ((generateFunctionABI name params rt body).stateMutability = some "view" ↔
      ((bodyReach body).any isValuedReturnB = true ∧
       (bodyReach body).any isStateModifyingB = false)) ∧
    ((generateFunctionABI name params rt body).stateMutability = some "view" ∨
     (generateFunctionABI name params rt body).stateMutability = some "nonpayable") := by
  have h1 := functionHasReturn_eq_reach body
  have h2 := functionModifiesState_eq_reach body
  constructor
  · simp only [generateFunctionABI, h1, h2]
    cases hr : (bodyReach body).any isValuedReturnB <;>
      cases hm : (bodyReach body).any isStateModifyingB <;> simp
  · simp only [generateFunctionABI]
    cases (functionHasReturn body && !functionModifiesState body) <;> simp

/-- C9: the fixed type table maps photon_int to int256, photon_string to
string, photon_bool to bool, photon_float to int256, photon_array to
int256[] and qubit to uint256, and function ABI inputs are built from it. -/
theorem C9_type_map :
    toSolType (some "photon_int") = "int256" ∧
    toSolType (some "photon_string") = "string" ∧
    toSolType (some "photon_bool") = "bool" ∧
    toSolType (some "photon_float") = "int256" ∧
    toSolType (some "photon_array") = "int256[]" ∧
    toSolType (some "qubit") = "uint256" ∧
    (∀ name params rt body,
      (generateFunctionABI name params rt body).inputs =
        params.map fun pr => ABIParam.mk pr.name (toSolType pr.typeAnn)) :=
  ⟨rfl, rfl, rfl, rfl, rfl, rfl, fun _ _ _ _ => rfl⟩

mutual

/-- Claim-side search (the claim's words for return-type inference): the
first reachable `return <expr>`, recursing into if/else-if/else, while and
for bodies in declaration order. -/
def findReturnSpec : List Statement → Option Expression
  | [] => none
  | s :: rest =>
      match stmtFindReturnSpec s with
      | some e => some e
      | none => findReturnSpec rest

def stmtFindReturnSpec : Statement → Option Expression
  | .ReturnStatement (some v) => some v
  | .IfStatement _ cons alts alt =>
      match findReturnSpec cons with
      | some e => some e
      | none =>
          match altsFindReturnSpec alts with
          | some e => some e
          | none => optFindReturnSpec alt
  | .WhileStatement _ b => findReturnSpec b
  | .ForStatement _ _ b => findReturnSpec b
  | _ => none

def optFindReturnSpec : Option (List Statement) → Option Expression
  | none => none
  | some b => findReturnSpec b

def altsFindReturnSpec : List (Expression × List Statement) → Option Expression
  | [] => none
  | (_, b) :: rest =>
      match findReturnSpec b with
      | some e => some e
      | none => altsFindReturnSpec rest

end

/-- Claim-side typing rules (the claim's words): string and boolean literals
fix their own type, any comparison, equality or boolean-combinator expression
is bool, and EVERY other expression is int256. -/
def inferExprTypeSpec : Expression → String
  | .StringLiteral _ => "string"
  | .BooleanLiteral _ => "bool"
  | .BinaryExpression op _ _ =>
      if op == "==" || op == "!=" || op == "<" || op == ">" ||
         op == "<=" || op == ">=" || op == "and" || op == "or" then "bool"
      else "int256"
  | .UnaryExpression op _ => if op == "not" then "bool" else "int256"
  | _ => "int256"

/-- Claim-side return-type inference: type of the first reachable return. -/
def inferReturnTypeSpec (body : List Statement) : String :=
  match findReturnSpec body with
  | some e => inferExprTypeSpec e
  | none => "int256"

/-- C3 counterexample: (i) a function whose only `return "s"` sits inside an
`if` block gets ABI output int256 although the claim's recursive search
yields string; (ii) a function returning an array literal gets ABI output
int256[] although the claim's typing rules make every non-literal,
non-boolean expression int256. -/
theorem C3_counterexample :
    (inferReturnTypeSpec
        [Statement.IfStatement (Expression.BooleanLiteral true)
          [Statement.ReturnStatement (some (Expression.StringLiteral "s"))] [] none] =
        "string" ∧
      (generateFunctionABI "f" [] none
        [Statement.IfStatement (Expression.BooleanLiteral true)
          [Statement.ReturnStatement (some (Expression.StringLiteral "s"))] [] none]).outputs =
        some [ABIParam.mk "" "int256"]) ∧
    (inferExprTypeSpec (Expression.ArrayLiteral []) = "int256" ∧
      (generateFunctionABI "g" [] none
        [Statement.ReturnStatement (some (Expression.ArrayLiteral []))]).outputs =
        some [ABIParam.mk "" "int256[]"]) :=
  ⟨⟨rfl, rfl⟩, ⟨rfl, rfl⟩⟩

/-- C3 (amended): for an unannotated function the ABI output type comes from
the first TOP-LEVEL `return <expr>` of the body (no recursion into nested
blocks; with none present the type defaults to int256), and the typing rules
are: string literal → string, boolean literal → bool, array literal →
int256[], comparison/equality/boolean-combinator → bool, `not` → bool,
every other expression → int256. -/
theorem C3_first_top_level_return (name : String) (params : List Param)
    (pre post : List Statement) (v : Expression)
    (h : ∀ s ∈ pre, isValuedReturnB s = false) :
    (generateFunctionABI name params none
        (pre ++ Statement.ReturnStatement (some v) :: post)).outputs =
      some [ABIParam.mk "" (inferExprType v)] ∧
    (∀ body, (∀ s ∈ body, isValuedReturnB s = false) → functionHasReturn body = true →
      (generateFunctionABI name params none body).outputs = some [ABIParam.mk "" "int256"]) ∧
    (∀ t, inferExprType (Expression.StringLiteral t) = "string") ∧
    (∀ b, inferExprType (Expression.BooleanLiteral b) = "bool") ∧
    (∀ es, inferExprType (Expression.ArrayLiteral es) = "int256[]") ∧
    (∀ n, inferExprType (Expression.NumberLiteral n) = "int256") ∧
    (∀ op l r,
      (op == "==" || op == "!=" || op == "<" || op == ">" ||
       op == "<=" || op == ">=" || op == "and" || op == "or") = true →
      inferExprType (Expression.BinaryExpression op l r) = "bool") ∧
    (∀ op l r,
      (op == "==" || op == "!=" || op == "<" || op == ">" ||
       op == "<=" || op == ">=" || op == "and" || op == "or") = false →
      inferExprType (Expression.BinaryExpression op l r) = "int256") ∧
    (∀ op e, inferExprType (Expression.UnaryExpression op e) =
      (if op == "not" then "bool" else "int256")) ∧
    (∀ t, inferExprType (Expression.Identifier t) = "int256") ∧
    (∀ c args, inferExprType (Expression.CallExpression c args) = "int256") ∧
    (∀ o i, inferExprType (Expression.IndexExpression o i) = "int256") := by
  refine ⟨?_, ?_, fun _ => rfl, fun _ => rfl, fun _ => rfl, fun _ => rfl,
    ?_, ?_, fun _ _ => rfl, fun _ => rfl, fun _ _ => rfl, fun _ _ => rfl⟩
  · have hret : functionHasReturn
        (pre ++ Statement.ReturnStatement (some v) :: post) = true := by
      rw [functionHasReturn_append]
      simp [functionHasReturn, stmtHasReturn]
    have hinf : inferReturnType
        (pre ++ Statement.ReturnStatement (some v) :: post) = inferExprType v := by
      rw [inferReturnType_skip pre _ h]
      rfl
    simp [generateFunctionABI, hret, hinf]
  · intro body hb hr
    have hinf : inferReturnType body = "int256" := by
      have := inferReturnType_skip body [] hb
      simpa using this
    simp [generateFunctionABI, hr, hinf]
  · intro op l r hop
    simp [inferExprType, hop]
  · intro op l r hop
    simp [inferExprType, hop]

/-- C3 witness: the amended inference at a concrete input — a body whose
first top-level return yields a string literal gets a string output. -/
theorem C3_witness :
    (generateFunctionABI "f" []
        none ([] ++ Statement.ReturnStatement (some (Expression.StringLiteral "a")) :: [])).outputs =
      some [ABIParam.mk "" "string"] :=
  (C3_first_top_level_return "f" [] [] [] (Expression.StringLiteral "a")
    (by intro s hs; simp at hs)).1

theorem filterMap_declGetter_length (l : List Statement) :
    (l.filterMap declGetter).length = l.countP isTopDeclB := by
  induction l with
  | nil => rfl
  | cons s t ih =>
      cases s <;> simp [List.filterMap_cons, List.countP_cons, declGetter, isTopDeclB, ih]

/-- C4: generateABI emits exactly one auto-generated getter per top-level
let/const declaration, appearing in the ABI: an indexed getter (one uint256
input, one int256 output) for array-literal declarations, otherwise a plain
getter (no inputs, one output of the declaration's mapped type). -/
theorem C4_getters (p : Program) :
    (p.body.filterMap declGetter).Sublist (generateABI p) ∧
    (p.body.filterMap declGetter).length = p.body.countP isTopDeclB ∧
    (∀ name ty v, Statement.LetDeclaration name ty v ∈ p.body →
        (if isArrayLitValue v then arrayGetterEntry name
         else scalarGetterEntry name (toSolType ty)) ∈ generateABI p) ∧
    (∀ name ty v, Statement.ConstDeclaration name ty v ∈ p.body →
        (if isArrayLitValue v then arrayGetterEntry name
         else scalarGetterEntry name (toSolType ty)) ∈ generateABI p) := by
  refine ⟨?_, filterMap_declGetter_length p.body, ?_, ?_⟩
  · rw [generateABI]
    exact (List.sublist_append_right _ _).trans (List.sublist_append_left _ _)
  · intro name ty v hmem
    have hG : (if isArrayLitValue v then arrayGetterEntry name
        else scalarGetterEntry name (toSolType ty)) ∈ p.body.filterMap declGetter :=
      List.mem_filterMap.mpr ⟨Statement.LetDeclaration name ty v, hmem, rfl⟩
    rw [generateABI]
    exact List.mem_append.mpr (Or.inl (List.mem_append.mpr (Or.inr hG)))
  · intro name ty v hmem
    have hG : (if isArrayLitValue v then arrayGetterEntry name
        else scalarGetterEntry name (toSolType ty)) ∈ p.body.filterMap declGetter :=
      List.mem_filterMap.mpr ⟨Statement.ConstDeclaration name ty v, hmem, rfl⟩
    rw [generateABI]
    exact List.mem_append.mpr (Or.inl (List.mem_append.mpr (Or.inr hG)))

/-- C5 counterexample: a program whose only statement is a top-level CONST
declaration with an array-literal initializer gets an ABI holding just the
indexed getter — no constructor entry, although the claim promises one for
every array declaration "whether let or const". -/
theorem C5_counterexample :
    generateABI (Program.mk [Statement.ConstDeclaration "xs" none
        (some (Expression.ArrayLiteral [Expression.NumberLiteral 1]))]) =
      [arrayGetterEntry "xs"] ∧
    isArrayLitValue (some (Expression.ArrayLiteral [Expression.NumberLiteral 1])) = true :=
  ⟨rfl, rfl⟩

/-- C5 (amended): the ABI has exactly one constructor entry (with no inputs)
iff the program has a top-level statement that is neither a let/const
declaration nor a function declaration, or at least one top-level LET
declaration with an array-literal initializer; every such let-array
declaration yields both the constructor entry and its indexed getter (a
const array declaration yields only the getter). -/
theorem C5_constructor_iff (p : Program) :
    ((generateABI p).countP (fun e => e.type == "constructor") =
      (if (p.body.any fun s => !(isTopDeclB s || isFunctionDeclB s)) || p.body.any isLetArrayB
       then 1 else 0)) ∧
    (∀ e ∈ generateABI p, e.type = "constructor" → e = constructorEntry) ∧
    (∀ name ty elems,
      Statement.LetDeclaration name ty (some (Expression.ArrayLiteral elems)) ∈ p.body →
        constructorEntry ∈ generateABI p ∧ arrayGetterEntry name ∈ generateABI p) := by
  refine ⟨?_, ?_, ?_⟩
  · rw [generateABI, List.countP_append, List.countP_append, List.countP_append]
    have hev : (eventEntries p.body).countP (fun e => e.type == "constructor") = 0 := by
      rw [List.countP_eq_zero]
      intro e he
      rw [eventEntries_mem_type p.body e he]
      decide
    have hG : (p.body.filterMap declGetter).countP (fun e => e.type == "constructor") = 0 := by
      rw [List.countP_eq_zero]
      intro e he
      obtain ⟨s, _, hs⟩ := List.mem_filterMap.mp he
      rw [declGetter_is_function s e hs]
      decide
    have hF : (p.body.filterMap funcABIEntry).countP (fun e => e.type == "constructor") = 0 := by
      rw [List.countP_eq_zero]
      intro e he
      obtain ⟨s, _, hs⟩ := List.mem_filterMap.mp he
      rw [funcABIEntry_is_function s e hs]
      decide
    have hct : (ctorEntries p.body).countP (fun e => e.type == "constructor") =
        (if (p.body.any fun s => !(isTopDeclB s || isFunctionDeclB s)) || p.body.any isLetArrayB
         then 1 else 0) := by
      rw [ctorEntries]
      split <;> simp [List.countP_cons, constructorEntry]
    rw [hev, hG, hF, hct]
    simp
  · intro e he ht
    rw [generateABI] at he
    rcases List.mem_append.mp he with h1 | h1
    · rcases List.mem_append.mp h1 with h2 | h2
      · rcases List.mem_append.mp h2 with h3 | h3
        · exact absurd ht (by rw [eventEntries_mem_type p.body e h3]; decide)
        · exact ctorEntries_mem p.body e h3
      · obtain ⟨s, _, hs⟩ := List.mem_filterMap.mp h2
        exact absurd ht (by rw [declGetter_is_function s e hs]; decide)
    · obtain ⟨s, _, hs⟩ := List.mem_filterMap.mp h1
      exact absurd ht (by rw [funcABIEntry_is_function s e hs]; decide)
  · intro name ty elems hmem
    have hany : p.body.any isLetArrayB = true :=
      List.any_eq_true.mpr ⟨Statement.LetDeclaration name ty
        (some (Expression.ArrayLiteral elems)), hmem, rfl⟩
    constructor
    · rw [generateABI]
      refine List.mem_append.mpr (Or.inl (List.mem_append.mpr (Or.inl
        (List.mem_append.mpr (Or.inr ?_)))))
      simp [ctorEntries, hany]
    · rw [generateABI]
      refine List.mem_append.mpr (Or.inl (List.mem_append.mpr (Or.inr ?_)))
      exact List.mem_filterMap.mpr ⟨Statement.LetDeclaration name ty
        (some (Expression.ArrayLiteral elems)), hmem, rfl⟩

/-- C6: the event entries of the ABI are exactly the log variants with a
reachable statement-level photon_print call site of the matching first
argument shape, one entry per variant at most, in the fixed order. -/
theorem C6_events (p : Program) :
    (generateABI p).filter (fun e => e.type == "event") =
      (if (bodyReachAll p.body).any isStrPrintB then [logEventEntry] else []) ++
      (if (bodyReachAll p.body).any isIntPrintB then [logIntEventEntry] else []) ++
      (if (bodyReachAll p.body).any isBoolPrintB then [logBoolEventEntry] else []) := by
  rw [generateABI, List.filter_append, List.filter_append, List.filter_append]
  have hev : (eventEntries p.body).filter (fun e => e.type == "event") =
      eventEntries p.body := by
    rw [List.filter_eq_self]
    intro e he
    rw [eventEntries_mem_type p.body e he]
    decide
  have hct : (ctorEntries p.body).filter (fun e => e.type == "event") = [] := by
    rw [List.filter_eq_nil_iff]
    intro e he
    rw [ctorEntries_mem p.body e he]
    decide
  have hG : (p.body.filterMap declGetter).filter (fun e => e.type == "event") = [] := by
    rw [List.filter_eq_nil_iff]
    intro e he
    obtain ⟨s, _, hs⟩ := List.mem_filterMap.mp he
    rw [declGetter_is_function s e hs]
    decide
  have hF : (p.body.filterMap funcABIEntry).filter (fun e => e.type == "event") = [] := by
    rw [List.filter_eq_nil_iff]
    intro e he
    obtain ⟨s, _, hs⟩ := List.mem_filterMap.mp he
    rw [funcABIEntry_is_function s e hs]
    decide
  rw [hev, hct, hG, hF, List.append_nil, List.append_nil, List.append_nil]
  rw [eventEntries, checkLogUsage_eq_reach]
  simp

theorem isZeroArgPrintB_modifies (s : Statement) (h : isZeroArgPrintB s = true) :
    isStateModifyingB s = true := by
  cases s
  case ExpressionStatement e =>
    cases e
    case CallExpression c args =>
      cases args
      case nil => simpa [isZeroArgPrintB, isStateModifyingB] using h
      case cons a r => simp [isZeroArgPrintB] at h
    all_goals simp [isZeroArgPrintB] at h
  all_goals simp [isZeroArgPrintB] at h

theorem isStrPrintB_isArgPrint (s : Statement) (h : isStrPrintB s = true) :
    isArgPrintB s = true := by
  cases s
  case ExpressionStatement e =>
    cases e
    case CallExpression c args =>
      cases args
      case nil => simp [isStrPrintB] at h
      case cons a r =>
        cases a <;> simp_all [isStrPrintB, isArgPrintB]
    all_goals simp [isStrPrintB] at h
  all_goals simp [isStrPrintB] at h

theorem isBoolPrintB_isArgPrint (s : Statement) (h : isBoolPrintB s = true) :
    isArgPrintB s = true := by
  cases s
  case ExpressionStatement e =>
    cases e
    case CallExpression c args =>
      cases args
      case nil => simp [isBoolPrintB] at h
      case cons a r =>
        cases a <;> simp_all [isBoolPrintB, isArgPrintB]
    all_goals simp [isBoolPrintB] at h
  all_goals simp [isBoolPrintB] at h

theorem isIntPrintB_isArgPrint (s : Statement) (h : isIntPrintB s = true) :
    isArgPrintB s = true := by
  cases s
  case ExpressionStatement e =>
    cases e
    case CallExpression c args =>
      cases args
      case nil => simp [isIntPrintB] at h
      case cons a r =>
        cases a <;> simp_all [isIntPrintB, isArgPrintB]
    all_goals simp [isIntPrintB] at h
  all_goals simp [isIntPrintB] at h

/-- C10: a reachable statement-level zero-argument photon_print call makes a
function nonpayable (any photon_print call counts as state-modifying), yet
when every reachable photon_print statement in a program has no arguments
the ABI holds no event entry (event detection needs a first argument). -/
theorem C10_zero_arg_print (name : String) (params : List Param) (rt : Option String)
    (body : List Statement) (p : Program)
    (h₁ : (bodyReach body).any isZeroArgPrintB = true)
    (h₂ : (bodyReachAll p.body).all (fun s => !isArgPrintB s) = true) :
    (generateFunctionABI name params rt body).stateMutability = some "nonpayable" ∧
    (generateABI p).all (fun e => e.type != "event") = true := by
  constructor
  · have hmod : functionModifiesState body = true := by
      rw [functionModifiesState_eq_reach]
      obtain ⟨s, hs, hz⟩ := List.any_eq_true.mp h₁
      exact List.any_eq_true.mpr ⟨s, hs, isZeroArgPrintB_modifies s hz⟩
    simp [generateFunctionABI, hmod]
  · have hall := List.all_eq_true.mp h₂
    have hstr : (bodyReachAll p.body).any isStrPrintB = false := by
      rw [List.any_eq_false]
      intro s hs hc
      have := hall s hs
      rw [isStrPrintB_isArgPrint s hc] at this
      simp at this
    have hbool : (bodyReachAll p.body).any isBoolPrintB = false := by
      rw [List.any_eq_false]
      intro s hs hc
      have := hall s hs
      rw [isBoolPrintB_isArgPrint s hc] at this
      simp at this
    have hint : (bodyReachAll p.body).any isIntPrintB = false := by
      rw [List.any_eq_false]
      intro s hs hc
      have := hall s hs
      rw [isIntPrintB_isArgPrint s hc] at this
      simp at this
    have hev : eventEntries p.body = [] := by
      rw [eventEntries, checkLogUsage_eq_reach, hstr, hbool, hint]
      simp
    rw [generateABI, hev, List.nil_append, List.all_append, List.all_append,
      Bool.and_eq_true, Bool.and_eq_true]
    refine ⟨⟨?_, ?_⟩, ?_⟩
    · rw [List.all_eq_true]
      intro e he
      rw [ctorEntries_mem p.body e he]
      decide
    · rw [List.all_eq_true]
      intro e he
      obtain ⟨s, _, hs⟩ := List.mem_filterMap.mp he
      have := declGetter_is_function s e hs
      simp [this]
    · rw [List.all_eq_true]
      intro e he
      obtain ⟨s, _, hs⟩ := List.mem_filterMap.mp he
      have := funcABIEntry_is_function s e hs
      simp [this]

/-- C10 witness: the program whose single function body is one zero-argument
photon_print statement — the function is nonpayable, the ABI has no event. -/
theorem C10_witness :
    (generateFunctionABI "f" [] none
        [Statement.ExpressionStatement
          (Expression.CallExpression "photon_print" [])]).stateMutability =
      some "nonpayable" ∧
    (generateABI (Program.mk [Statement.FunctionDeclaration "f" [] none
        [Statement.ExpressionStatement
          (Expression.CallExpression "photon_print" [])]])).all
      (fun e => e.type != "event") = true :=
  C10_zero_arg_print "f" [] none _ _ (by decide) (by decide)

/-- Projection of a compile result onto its four components. -/
def compileResultToTuple (r : CompileResult) : Bool × String × List String × Option String :=
  (r.success, r.solidity, r.warnings, r.error)

/-- Rebuilding a compile result from four components. -/
def tupleToCompileResult : Bool × String × List String × Option String → CompileResult
  | (su, so, w, e) => CompileResult.mk su so w e

/-- C1: the facade's `CompileResult` carries exactly the four components
success, solidity, warnings and error (the two maps are mutually inverse),
so no ABI list is part of any compile result the facade returns. -/
theorem C1_result_components :
    (∀ r : CompileResult, tupleToCompileResult (compileResultToTuple r) = r) ∧
    (∀ t : Bool × String × List String × Option String,
      compileResultToTuple (tupleToCompileResult t) = t) :=
  ⟨fun _ => rfl, fun _ => rfl⟩

/-- C7: the compile facade is total and two-shaped for every pipeline
outcome: a pipeline success yields {success true, the generated text, the
warnings, no error}; a pipeline fault is caught and yields exactly
{success false, empty solidity, empty warnings, the single message} —
never partial output mixed with an error. -/
theorem C7_compile_shapes
    (pipeline : String → String → Except String (String × List String))
    (source contractName : String) :
    (∃ sol warns, pipeline source contractName = Except.ok (sol, warns) ∧
        compileWith pipeline source contractName = CompileResult.mk true sol warns none) ∨
    (∃ msg, pipeline source contractName = Except.error msg ∧
        compileWith pipeline source contractName = CompileResult.mk false "" [] (some msg)) := by
  cases h : pipeline source contractName with
  | ok pr =>
      obtain ⟨sol, warns⟩ := pr
      exact Or.inl ⟨sol, warns, rfl, by rw [compileWith, h]⟩
  | error msg =>
      exact Or.inr ⟨msg, rfl, by rw [compileWith, h]⟩

/-- C8: compile and generateABI are deterministic pure functions: the result
is the same under any ambient environment (clock, randomness seed, results
left over from prior invocations), a call leaves the environment unchanged,
and an immediately repeated call with identical arguments returns an
identical result. -/
theorem C8_deterministic
    (pipeline : String → String → Except String (String × List String))
    (e₁ e₂ : Env) (source contractName : String) (p : Program) :
    (compileInEnv pipeline e₁ source contractName).1 =
      (compileInEnv pipeline e₂ source contractName).1 ∧
    (compileInEnv pipeline e₁ source contractName).2 = e₁ ∧
    (compileInEnv pipeline
        ((compileInEnv pipeline e₁ source contractName).2) source contractName).1 =
      (compileInEnv pipeline e₁ source contractName).1 ∧
    (generateABIInEnv e₁ p).1 = (generateABIInEnv e₂ p).1 ∧
    (generateABIInEnv e₁ p).2 = e₁ :=
  ⟨rfl, rfl, rfl, rfl, rfl⟩
